import Mathlib

/-!
# Verification of the contract-analyzer file-processing pipeline

A shallow embedding, in Lean 4, of the core pipeline of the
`contract-analyzer` repository (src/src): the pure domain services
(`ContractAnalysisService`, `ContractValidationService`), the pure text
normalizer (`core/business-logic.ts`), the extraction/analysis adapters
(`utils/awsServices.ts`, `infrastructure/adapters/BedrockAnalyzer.ts`) and
the orchestrator (`application/use-cases/ProcessContractFilesUseCase.ts`).

Conventions of the embedding:
* JavaScript strings are Lean `String`s; the scanners below transcribe the
  exact regular expressions of the source (leftmost match, greedy runs).
* JavaScript numbers are modelled as `ℚ` (sizes and counts as `ℕ`/`ℤ`);
  every numeric value appearing in the verified claims is exactly
  representable in binary floating point, so `ℚ` and IEEE agree on them.
* Asynchronous I/O (S3, Textract, Bedrock) is modelled by oracle
  parameters: a call's outcome is a value of an `Except`/`Option` type
  supplied to the embedded function.  `Date.now()` readings and generated
  ids are likewise supplied as parameters.
* Thrown exceptions are modelled with `Except String`.
-/

deriving instance DecidableEq for Except

namespace ContractAnalyzer

/-! ## Basic JavaScript string helpers -/

/-- The whitespace class of JavaScript's `\s` (and `String.prototype.trim`). -/
def jsWs (c : Char) : Bool :=
  c = ' ' || c = '\t' || c = '\n' || c = '\r' || c = '\u000b' || c = '\u000c' ||
  c = '\u00a0' || c = '\u1680' ||
  (('\u2000' : Char) ≤ c && c ≤ ('\u200a' : Char)) ||
  c = '\u2028' || c = '\u2029' || c = '\u202f' || c = '\u205f' ||
  c = '\u3000' || c = '\ufeff'

/-- `needle` occurs at the head of `hay`. -/
def headMatches : List Char → List Char → Bool
  | [], _ => true
  | _ :: _, [] => false
  | n :: ns, h :: hs => n == h && headMatches ns hs

/-- `String.prototype.includes`: substring containment. -/
def listIncludes (hay needle : List Char) : Bool :=
  match hay with
  | [] => headMatches needle []
  | _ :: hs => headMatches needle hay || listIncludes hs needle

/-- `s.includes(needle)` on Lean strings. -/
def strIncludes (s needle : String) : Bool :=
  listIncludes s.toList needle.toList

/-- ASCII lower-casing, as applied by `toLowerCase()` to the ASCII inputs
the pipeline compares (extensions, keywords). -/
def lcChar (c : Char) : Char := c.toLower

def lcList (l : List Char) : List Char := l.map lcChar

def strToLower (s : String) : String := ⟨lcList s.toList⟩

/-- `s.trim()` with JavaScript's whitespace class. -/
def jsTrimList (l : List Char) : List Char :=
  ((l.dropWhile jsWs).reverse.dropWhile jsWs).reverse

def jsTrim (s : String) : String := ⟨jsTrimList s.toList⟩

/-! ## Digit runs and numeric literals (shared by the regex scanners) -/

/-- Split off the maximal leading run of decimal digits. -/
def digitRun : List Char → List Char × List Char
  | [] => ([], [])
  | c :: cs =>
    if c.isDigit then
      let p := digitRun cs
      (c :: p.1, p.2)
    else ([], c :: cs)

/-- `parseInt(_, 10)` of a digit run. -/
def natOfDigits (l : List Char) : ℕ :=
  l.foldl (fun n c => 10 * n + (c.toNat - '0'.toNat)) 0

/-- The exact rational value of `parseFloat` on `intPart.fracPart`
(every literal the claims touch is float-exact). -/
def ratOfParts (intPart fracPart : List Char) : ℚ :=
  (natOfDigits intPart : ℚ) + (natOfDigits fracPart : ℚ) / ((10 : ℚ) ^ fracPart.length)

/-! ## The regex scanners of `ContractAnalysisService`

Each scanner transcribes one regular expression from
`domain/services/ContractAnalysisService.ts`, with JavaScript's leftmost
match semantics: attempt a match at each position, left to right, with
greedy digit runs (backtracking inside a digit run can never rescue these
patterns, so per-position matching reduces to the code below). -/

/-- Skip `\s*` and require `%`: the tail of `/(\d+(?:\.\d+)?)\s*%/`. -/
def wsThenPercent (l : List Char) : Bool :=
  match l.dropWhile jsWs with
  | '%' :: _ => true
  | _ => false

/-- First match of `/(\d+(?:\.\d+)?)\s*%/`, returning the captured number. -/
def findPercentNum : List Char → Option ℚ
  | [] => none
  | c :: cs =>
    if c.isDigit then
      let p := digitRun (c :: cs)
      match p.2 with
      | '.' :: ds =>
        let q := digitRun ds
        if !q.1.isEmpty && wsThenPercent q.2 then some (ratOfParts p.1 q.1)
        else if wsThenPercent p.2 then some (ratOfParts p.1 [])
        else findPercentNum cs
      | rest =>
        if wsThenPercent rest then some (ratOfParts p.1 [])
        else findPercentNum cs
    else findPercentNum cs

/-- First match of `/(\d+)\/(\d+)/`, returning both captures. -/
def findFraction : List Char → Option (ℕ × ℕ)
  | [] => none
  | c :: cs =>
    if c.isDigit then
      let p := digitRun (c :: cs)
      match p.2 with
      | '/' :: ds =>
        let q := digitRun ds
        if !q.1.isEmpty then some (natOfDigits p.1, natOfDigits q.1)
        else findFraction cs
      | _ => findFraction cs
    else findFraction cs

/-- First match of `/0\.(\d+)/`, returning the value `0.<capture>`. -/
def findLeadingDecimal : List Char → Option ℚ
  | [] => none
  | '0' :: '.' :: ds =>
    let q := digitRun ds
    if !q.1.isEmpty then some (ratOfParts [] q.1)
    else findLeadingDecimal ('.' :: ds)
  | _ :: cs => findLeadingDecimal cs

/-- First match of `/(\d+(?:\.\d+)?)\s*(?:acres?)?/i`: the optional tail
never constrains the match, so this is the first number in the string. -/
def findFirstNumber : List Char → Option ℚ
  | [] => none
  | c :: cs =>
    if c.isDigit then
      let p := digitRun (c :: cs)
      match p.2 with
      | '.' :: ds =>
        let q := digitRun ds
        if !q.1.isEmpty then some (ratOfParts p.1 q.1) else some (ratOfParts p.1 [])
      | _ => some (ratOfParts p.1 [])
    else findFirstNumber cs

/-- Case-insensitive check that `l` starts with `year` (the mandatory part
of `years?`). -/
def startsWithYear (l : List Char) : Bool :=
  match l with
  | a :: b :: c :: d :: _ => lcChar a == 'y' && lcChar b == 'e' && lcChar c == 'a' && lcChar d == 'r'
  | _ => false

/-- First match of `/(\d+)[-\s]*years?/i`, returning the captured integer. -/
def findTermYearsNum : List Char → Option ℕ
  | [] => none
  | c :: cs =>
    if c.isDigit then
      let p := digitRun (c :: cs)
      let rest := p.2.dropWhile (fun ch => ch == '-' || jsWs ch)
      if startsWithYear rest then some (natOfDigits p.1)
      else findTermYearsNum cs
    else findTermYearsNum cs

/-! ## `ContractAnalysisService` (domain/services/ContractAnalysisService.ts) -/

/-- The analysis record of `types/contract.ts` (`ContractAnalysisResult`). -/
structure ContractAnalysisResult where
  lessors : List String
  lessees : List String
  acreage : String
  depths : String
  term : String
  royalty : String
  insights : List String
deriving DecidableEq, Repr

namespace ContractAnalysisService

/-- The guard shared by the extractors:
`!s || s.includes('Error in processing')`. -/
def errGuard (s : String) : Bool :=
  s == "" || strIncludes s "Error in processing"

/-- `ContractAnalysisService.extractRoyaltyPercentage`, transcribed:
guard, then the percentage pattern, then the fraction pattern (skipped when
its denominator is `0`), then the leading-decimal pattern. -/
def extractRoyaltyPercentage (royaltyString : String) : Option ℚ :=
  if errGuard royaltyString then none
  else
    match findPercentNum royaltyString.toList with
    | some q => some q
    | none =>
      match findFraction royaltyString.toList with
      | some nd =>
        if nd.2 ≠ 0 then some ((nd.1 : ℚ) / (nd.2 : ℚ) * 100)
        else
          match findLeadingDecimal royaltyString.toList with
          | some d => some (d * 100)
          | none => none
      | none =>
        match findLeadingDecimal royaltyString.toList with
        | some d => some (d * 100)
        | none => none

/-- The percentage branch of `extractRoyaltyPercentage`, in isolation. -/
def percentBranch (s : String) : Option ℚ := findPercentNum s.toList

/-- The fraction branch in isolation: the first `N/N` match converted to a
percentage, `none` when absent or when the denominator is `0`. -/
def fractionBranch (s : String) : Option ℚ :=
  match findFraction s.toList with
  | some nd => if nd.2 ≠ 0 then some ((nd.1 : ℚ) / (nd.2 : ℚ) * 100) else none
  | none => none

/-- The leading-decimal branch in isolation: first `0.NNN` match, times 100. -/
def decimalBranch (s : String) : Option ℚ :=
  match findLeadingDecimal s.toList with
  | some d => some (d * 100)
  | none => none

/-- `ContractAnalysisService.extractAcreageNumber`. -/
def extractAcreageNumber (acreageString : String) : Option ℚ :=
  if errGuard acreageString then none
  else findFirstNumber acreageString.toList

/-- `ContractAnalysisService.extractTermYears`. -/
def extractTermYears (termString : String) : Option ℕ :=
  if errGuard termString then none
  else findTermYearsNum termString.toList

/-- `ContractAnalysisService.isStandardTerm`: 3 to 5 years inclusive. -/
def isStandardTerm (termString : String) : Bool :=
  match extractTermYears termString with
  | some y => 3 ≤ y && y ≤ 5
  | none => false

/-- `ContractAnalysisService.getTotalParties`. -/
def getTotalParties (lessors lessees : List String) : ℕ :=
  (lessors.filter (fun l => !strIncludes l "Error in processing")).length +
  (lessees.filter (fun l => !strIncludes l "Error in processing")).length

/-- `ContractAnalysisService.isComplexAgreement`. -/
def isComplexAgreement (lessors lessees : List String) : Bool :=
  4 < getTotalParties lessors lessees

/-- The fixed critical-keyword list of `getCriticalInsights`. -/
def criticalKeywords : List String :=
  ["unusual", "problematic", "risk", "concern", "warning",
   "issue", "potential problem", "non-standard", "deviation",
   "conflict", "ambiguous", "unclear"]

/-- One insight is critical: its lower-casing contains some keyword. -/
def isCriticalInsight (insight : String) : Bool :=
  criticalKeywords.any (fun k => strIncludes (strToLower insight) k)

/-- `ContractAnalysisService.getCriticalInsights`. -/
def getCriticalInsights (insights : List String) : List String :=
  insights.filter isCriticalInsight

/-- `ContractAnalysisService.calculateRiskScore`: additive factors, the
critical-insight factor capped at 25, the total capped at 100. -/
def calculateRiskScore (a : ContractAnalysisResult) : ℕ :=
  let rp := extractRoyaltyPercentage a.royalty
  let f1 : ℕ := match rp with | some q => if q < 10 then 20 else 0 | none => 0
  let f2 : ℕ := match rp with | some q => if 20 < q then 10 else 0 | none => 0
  let f3 : ℕ := if isComplexAgreement a.lessors a.lessees then 15 else 0
  let f4 : ℕ := if isStandardTerm a.term then 0 else 10
  let f5 : ℕ := min (5 * (getCriticalInsights a.insights).length) 25
  let ac := extractAcreageNumber a.acreage
  let f6 : ℕ := match ac with | some q => if 1000 < q then 10 else 0 | none => 0
  min (f1 + f2 + f3 + f4 + f5 + f6) 100

/-- `ContractAnalysisService.calculateQualityScore` (kept for completeness
of the scoring layer; starts at 100, subtracts, floors at 0, caps at 100). -/
def calculateQualityScore (a : ContractAnalysisResult) : ℕ :=
  let d1 : ℤ := if a.lessors.any (fun l => strIncludes l "Error in processing") then 20 else 0
  let d2 : ℤ := if a.lessees.any (fun l => strIncludes l "Error in processing") then 20 else 0
  let d3 : ℤ := if a.acreage == "Not found" || strIncludes a.acreage "Error" then 15 else 0
  let d4 : ℤ := if a.depths == "Not found" || strIncludes a.depths "Error" then 10 else 0
  let d5 : ℤ := if a.term == "Not found" || strIncludes a.term "Error" then 15 else 0
  let d6 : ℤ := if a.royalty == "Not found" || strIncludes a.royalty "Error" then 20 else 0
  let bonus : ℤ := if 5 < a.insights.length then 10 else 0
  (min (max (100 - d1 - d2 - d3 - d4 - d5 - d6 + bonus) 0) 100).toNat

end ContractAnalysisService

/-! ## `ContractValidationService` (domain/services/ContractValidationService.ts) -/

namespace ContractValidationService

/-- `getFileExtension`: the substring after the last dot when
`lastIndexOf('.') > 0`, lower-cased; otherwise the empty string.
(Also the body of `FileMetadata.getFileExtension`, which is identical.) -/
def getFileExtension (fileName : String) : String :=
  let l := fileName.toList
  let j := l.reverse.findIdx (fun c => c == '.')
  if j + 1 < l.length then ⟨lcList (l.reverse.take j).reverse⟩ else ""

/-- The `toFixed(1)` rendering of `fileSize / 1024 / 1024` used in the
oversize error message (the quotient is float-exact; ties round up). -/
def mbToFixed1 (fileSize : ℕ) : String :=
  let n := (20 * fileSize + 1048576) / 2097152
  toString (n / 10) ++ "." ++ toString (n % 10)

def sizeExceedsMessage (fileSize : ℕ) : String :=
  "File size (" ++ mbToFixed1 fileSize ++ "MB) exceeds maximum allowed size of 50MB"

/-- `validateFileMetadata(fileName, fileSize)`: the aggregated error list,
in push order (`isValid` is its emptiness). -/
def validateFileMetadata (fileName : String) (fileSize : ℕ) : List String :=
  (if fileName == "" || (jsTrim fileName).length = 0 then ["File name cannot be empty"] else [])
  ++ (if 255 < fileName.length then ["File name cannot exceed 255 characters"] else [])
  ++ (if 50 * 1024 * 1024 < fileSize then [sizeExceedsMessage fileSize] else [])
  ++ (if fileSize ≤ 0 then ["File size must be greater than 0"] else [])

/-- The extension allow-list of `isSupportedFileType`. -/
def supportedExtensions : List String :=
  ["pdf", "txt", "doc", "docx", "png", "jpg", "jpeg", "gif", "bmp", "tiff"]

/-- The MIME allow-list of `isSupportedMimeType`. -/
def supportedMimeTypes : List String :=
  ["application/pdf", "text/plain", "application/msword",
   "application/vnd.openxmlformats-officedocument.wordprocessingml.document",
   "image/png", "image/jpeg", "image/gif", "image/bmp", "image/tiff"]

/-- `isSupportedFileType(fileName, mimeType).isSupported`: a supported
extension, or a supported declared MIME type. -/
def isSupportedFileType (fileName : String) (mimeType : String) : Bool :=
  supportedExtensions.contains (getFileExtension fileName) ||
  supportedMimeTypes.contains mimeType

/-- `hasProcessingErrors`. -/
def hasProcessingErrors (a : ContractAnalysisResult) : Bool :=
  a.lessors.contains "Error in processing" ||
  a.lessees.contains "Error in processing" ||
  a.insights.any (fun i => strIncludes i "Failed to process")

/-- `hasRequiredFields`. -/
def hasRequiredFields (a : ContractAnalysisResult) : Bool :=
  !a.lessors.isEmpty && !a.lessees.isEmpty &&
  a.acreage ≠ "Not found" && a.depths ≠ "Not found" &&
  a.term ≠ "Not found" && a.royalty ≠ "Not found" &&
  !a.insights.isEmpty

/-- `isAnalysisSuccessful`. -/
def isAnalysisSuccessful (a : ContractAnalysisResult) : Bool :=
  !hasProcessingErrors a && hasRequiredFields a

/-- The type-priority table of `getProcessingPriority` (default 1). -/
def typePriority (ext : String) : ℤ :=
  if ext == "txt" then 10
  else if ext == "pdf" then 5
  else if ext == "doc" then 3
  else if ext == "docx" then 3
  else if ext == "png" then 2
  else if ext == "jpg" then 2
  else if ext == "jpeg" then 2
  else if ext == "gif" then 1
  else if ext == "bmp" then 1
  else if ext == "tiff" then 1
  else 1

/-- `getProcessingPriority(fileName, fileSize)`: type priority adjusted by
size in MB, floored at 1. -/
def getProcessingPriority (fileName : String) (fileSize : ℕ) : ℤ :=
  let priority := typePriority (getFileExtension fileName)
  let sizeInMB : ℚ := (fileSize : ℚ) / (1024 * 1024)
  let priority :=
    if sizeInMB < 1 then priority + 5
    else if sizeInMB < 5 then priority + 2
    else if 20 < sizeInMB then priority - 2
    else priority
  max 1 priority

end ContractValidationService

/-! ## Files, contracts and the orchestrator
(application/use-cases/ProcessContractFilesUseCase.ts)

`File` is modelled by its observable attributes: name, declared size,
declared MIME type, and (for the extraction adapter) its byte content
decoded as text.  The two infrastructure adapters are oracle parameters;
`Date.now()` readings are collapsed into one `now` parameter and the
per-file random ids into a `genId` parameter (the source generates these
nondeterministically; no claim depends on their values). -/

structure FileModel where
  name : String
  size : ℕ
  type : String
  content : String
deriving DecidableEq, Repr

structure ContractData where
  id : String
  fileName : String
  uploadDate : ℕ
  extractedText : String
  analysis : ContractAnalysisResult
  s3Key : Option String
deriving DecidableEq, Repr

/-- A call made to an infrastructure adapter, for stating when processing
work happens. -/
inductive AdapterCall
  | extractText (fileName : String)
  | analyzeContract (fileName : String)
deriving DecidableEq, Repr

namespace ProcessContractFilesUseCase

open ContractValidationService

/-- `validateFiles`: metadata errors prefixed with the file name, then the
type check, aggregated over all files in order. -/
def validateFiles (files : List FileModel) : List String :=
  files.foldl (fun acc f =>
    acc ++ (validateFileMetadata f.name f.size).map (fun e => f.name ++ ": " ++ e)
        ++ (if isSupportedFileType f.name f.type then [] else [f.name ++ ": Unsupported file type"])) []

/-- Stable insertion of `x` (originally before every element of the list)
into a descending-priority list: `x` goes before the first element whose
priority does not exceed its own.  Composed below this computes the unique
stable descending sort, which is what `Array.prototype.sort` (stable, with
comparator `priorityB - priorityA`) produces in `sortFilesByPriority`. -/
def insertByPriority (x : FileModel) : List FileModel → List FileModel
  | [] => [x]
  | y :: ys =>
    if getProcessingPriority y.name y.size ≤ getProcessingPriority x.name x.size
    then x :: y :: ys
    else y :: insertByPriority x ys

/-- `sortFilesByPriority`: higher priority first, ties in input order. -/
def sortFilesByPriority : List FileModel → List FileModel
  | [] => []
  | f :: fs => insertByPriority f (sortFilesByPriority fs)

/-- `generateS3Key`: for a declared-PDF file, a key freshly built from the
current clock and the `[^a-zA-Z0-9.-] → _` sanitized file name; otherwise
absent.  (Transcribed from the use case; note it re-reads the clock and
sanitizes, independently of any upload that happened during extraction.) -/
def generateS3Key (now : ℕ) (f : FileModel) : Option String :=
  if f.type == "application/pdf" then
    some ("contracts/" ++ toString now ++ "-" ++
      String.mk (f.name.toList.map (fun c =>
        if c.isAlphanum || c == '.' || c == '-' then c else '_')))
  else none

/-- The sentinel analysis built by `createErrorContract`. -/
def errorAnalysis (fileName : String) : ContractAnalysisResult :=
  ⟨["Error in processing"], ["Error in processing"],
   "Error in processing", "Error in processing", "Error in processing", "Error in processing",
   ["Failed to process " ++ fileName ++ ". Please try again or contact support."]⟩

/-- `createErrorContract`. -/
def createErrorContract (fid : String) (now : ℕ) (f : FileModel) (msg : String) : ContractData :=
  ⟨fid, f.name, now, "Error processing file: " ++ msg, errorAnalysis f.name, none⟩

/-- `createContractData`. -/
def createContractData (fid : String) (now : ℕ) (f : FileModel)
    (extractedText : String) (analysis : ContractAnalysisResult) : ContractData :=
  ⟨fid, f.name, now, extractedText, analysis, generateS3Key now f⟩

/-- `processIndividualFile`, with the adapter calls it makes: extraction,
then analysis; any thrown error is absorbed into `createErrorContract`. -/
def processIndividualFileT (ext : FileModel → Except String String)
    (ana : String → String → Except String ContractAnalysisResult)
    (now : ℕ) (fid : String) (f : FileModel) : ContractData × List AdapterCall :=
  match ext f with
  | .error msg => (createErrorContract fid now f msg, [.extractText f.name])
  | .ok t =>
    match ana t f.name with
    | .error msg =>
      (createErrorContract fid now f msg, [.extractText f.name, .analyzeContract f.name])
    | .ok a =>
      (createContractData fid now f t a, [.extractText f.name, .analyzeContract f.name])

/-- Map with the element index, starting at `i` (the per-file calls of
`sortedFiles.map((file, index) => ...)`). -/
def mapIdxFrom (g : ℕ → α → β) : ℕ → List α → List β
  | _, [] => []
  | i, x :: xs => g i x :: mapIdxFrom g (i + 1) xs

/-- `execute`, with the adapter calls the run makes: validate every file
(rejecting the whole batch on any error, before any adapter call), sort by
descending priority, process each file, collect the results of
`Promise.all` — which resolves to the contracts in the order the promises
were created, i.e. sorted order. -/
def executeT (ext : FileModel → Except String String)
    (ana : String → String → Except String ContractAnalysisResult)
    (now : ℕ) (genId : ℕ → String) (files : List FileModel) :
    Except String (List ContractData) × List AdapterCall :=
  let errors := validateFiles files
  if errors.isEmpty then
    let results :=
      mapIdxFrom (fun i f => processIndividualFileT ext ana now (genId i) f) 0
        (sortFilesByPriority files)
    (.ok (results.map Prod.fst), results.foldr (fun r acc => r.2 ++ acc) [])
  else
    (.error ("File validation failed: " ++ String.intercalate ", " errors), [])

end ProcessContractFilesUseCase

/-! ## `awsServices.ts`: the S3 key actually used by the upload -/

namespace AwsServices

/-- `uploadFileToS3`'s object key: `contracts/<Date.now()>-<file.name>` —
the raw name, no sanitization (the key under which the object is stored,
also recorded by `setLastUploadedS3Key`). -/
def uploadFileToS3Key (now : ℕ) (f : FileModel) : String :=
  "contracts/" ++ toString now ++ "-" ++ f.name

/-- A network interaction of the extraction paths (identity irrelevant to
the claims; only whether any occurs). -/
inductive NetCall
  | s3Upload
  | textractStart
  | textractPoll
  | textractGetPage
  | detectText
deriving DecidableEq, Repr

/-- `extractTextWithTextract`: dispatch on the declared MIME type.
`text/plain` returns `await file.text()` directly; PDFs go through the
S3/async path with a `< 5 MB` direct-bytes fallback; everything else goes
to the direct-bytes path.  The surrounding `try/catch` re-wraps any error
as `Failed to extract text from <name>: <msg>`.  The two network paths are
oracle parameters that also report the network calls they performed. -/
def extractTextWithTextract
    (pdfPath imgPath : FileModel → Except String String × List NetCall)
    (f : FileModel) : Except String String × List NetCall :=
  let inner : Except String String × List NetCall :=
    if f.type == "text/plain" then (.ok f.content, [])
    else if f.type == "application/pdf" then
      match pdfPath f with
      | (.ok t, tr) => (.ok t, tr)
      | (.error e, tr) =>
        if f.size < 5 * 1024 * 1024 then
          let r := imgPath f
          (r.1, tr ++ r.2)
        else (.error e, tr)
    else imgPath f
  match inner with
  | (.ok t, tr) => (.ok t, tr)
  | (.error e, tr) => (.error ("Failed to extract text from " ++ f.name ++ ": " ++ e), tr)

end AwsServices

/-! ## The text normalizer (core/business-logic.ts, `normalizeContractText`)

The three `replace` passes are transcribed with JavaScript regex semantics:
`/\r\n/g`, `/\n{3,}/g → "\n\n"`, and `/^\s+/gm → ""` (in multiline mode
`^` matches at the start and after every newline of the *original* string,
and `\s+` greedily eats any whitespace run standing there, newlines
included), then `trim()`. -/

namespace BusinessLogic

/-- `replace(/\r\n/g, '\n')`. -/
def replaceCRLF : List Char → List Char
  | [] => []
  | '\r' :: '\n' :: rest => '\n' :: replaceCRLF rest
  | c :: rest => c :: replaceCRLF rest

/-- `replace(/\n{3,}/g, '\n\n')`: `k` pending newlines seen so far. -/
def collapseNlAux (k : ℕ) : List Char → List Char
  | [] => if 3 ≤ k then ['\n', '\n'] else List.replicate k '\n'
  | '\n' :: rest => collapseNlAux (k + 1) rest
  | c :: rest =>
    (if 3 ≤ k then ['\n', '\n'] else List.replicate k '\n') ++ c :: collapseNlAux 0 rest

/-- `replace(/^\s+/gm, '')`: the flag records whether the current position
is a line start of the original string (position 0 or right after `\n`);
a whitespace run standing there is deleted wholesale. -/
def stripLead : Bool → List Char → List Char
  | _, [] => []
  | flag, c :: rest =>
    if flag && jsWs c then stripLead true rest
    else c :: stripLead (c == '\n') rest

/-- `normalizeContractText`. -/
def normalizeContractText (text : String) : String :=
  ⟨jsTrimList (stripLead true (collapseNlAux 0 (replaceCRLF text.toList)))⟩

end BusinessLogic

/-! ## The asynchronous Textract poll loop
(utils/awsServices.ts, `extractTextFromPDFViaS3`, lines 234-342)

The loop is driven by the outcomes of the successive
`GetDocumentTextDetection` calls, supplied as an oracle `polls` indexed by
the attempt counter; `pages` supplies the continuation responses fetched
after a `SUCCEEDED` status (the source's inner `while (nextToken)` loop).
The transcription keeps the source's exact control flow: the `while`
condition re-checks `jobStatus === 'IN_PROGRESS'`, a caught poll error sets
`jobStatus = 'POLLING_ERROR'`, and falling out of the loop always raises
the timeout error. -/

namespace AwsServices

structure TextractBlock where
  blockType : String
  text : Option String
deriving DecidableEq, Repr

structure GetDetectionResponse where
  jobStatus : Option String
  statusMessage : Option String
  blocks : Option (List TextractBlock)
  nextToken : Bool
deriving DecidableEq, Repr

/-- Outcome of one `GetDocumentTextDetection` send: it threw (with or
without being an `InvalidJobIdException`), or returned a response. -/
inductive PollOutcome
  | threw (invalidJobId : Bool)
  | ok (resp : GetDetectionResponse)

/-- JavaScript `x || d` on an optional string (`undefined` and `''` are
falsy). -/
def jsOrStr (o : Option String) (d : String) : String :=
  match o with
  | some s => if s == "" then d else s
  | none => d

/-- The source's `maxAttempts` (100 polls at 3-second intervals). -/
def maxAttempts : ℕ := 100

def timedOutMessage : String :=
  "Textract job timed out after 100 attempts (300 seconds / 5.0 minutes)"

/-- The inner `while (nextToken)` page-collection loop: append each
fetched page's blocks (when present) and follow its token.  `pages` lists
the successive continuation responses the service would return. -/
def collectBlocks : List TextractBlock → Bool → List GetDetectionResponse → List TextractBlock
  | acc, false, _ => acc
  | acc, true, [] => acc
  | acc, true, p :: ps => collectBlocks (acc ++ p.blocks.getD []) p.nextToken ps

/-- `LINE`-typed blocks' texts, falsy entries dropped, joined with
newlines. -/
def joinLineBlocks (blocks : List TextractBlock) : String :=
  String.intercalate "\n" (blocks.filterMap (fun b =>
    if b.blockType == "LINE" then
      match b.text with
      | some t => if t == "" then none else some t
      | none => none
    else none))

/-- One unrolling of the poll `while` loop.  `fuel = maxAttempts -
attempts` makes the recursion structural; the loop condition
`jobStatus === 'IN_PROGRESS' && attempts < maxAttempts` is transcribed
as the `jobStatus` test plus fuel exhaustion, and every exit from the
loop other than `return`/`throw` raises the timeout error, exactly as in
the source. -/
def pollGo (jobId : String) (polls : ℕ → PollOutcome) (pages : List GetDetectionResponse) :
    ℕ → ℕ → String → Except String String
  | 0, _, _ => .error timedOutMessage
  | fuel + 1, attempts, jobStatus =>
    if jobStatus == "IN_PROGRESS" then
      match polls attempts with
      | .threw invalid =>
        if invalid then .error ("Textract job " ++ jobId ++ " is invalid or expired")
        else pollGo jobId polls pages fuel (attempts + 1) "POLLING_ERROR"
      | .ok resp =>
        let st := jsOrStr resp.jobStatus "UNKNOWN"
        if st == "SUCCEEDED" then
          match resp.blocks with
          | none => .error "No text blocks found in document"
          | some bs => .ok (joinLineBlocks (collectBlocks bs resp.nextToken pages))
        else if st == "FAILED" then
          .error ("Textract job failed: " ++ jsOrStr resp.statusMessage "Unknown error")
        else pollGo jobId polls pages fuel (attempts + 1) st
    else .error timedOutMessage

/-- The polling stage of `extractTextFromPDFViaS3`, entered with
`jobStatus = 'IN_PROGRESS'` and `attempts = 0`. -/
def pdfPollLoop (jobId : String) (polls : ℕ → PollOutcome)
    (pages : List GetDetectionResponse) : Except String String :=
  pollGo jobId polls pages maxAttempts 0 "IN_PROGRESS"

end AwsServices

/-! ## `BedrockAnalyzer` (infrastructure/adapters/BedrockAnalyzer.ts)

The model's JSON reply is duck-typed in the source; here a field of the
parsed object is `Option JVal`: absent, a string, an array of strings, or
anything else.  The outcome of the whole
`analyzeContractWithBedrock` call is
`Except String (Option RawAnalysis)`: the Bedrock invocation threw (the
source's outer catch → 'Service unavailable' record), returned
unparseable content (inner catch → 'Could not extract from document'
record), or returned a parsed object. -/

namespace BedrockModel

inductive JVal
  | jstr (s : String)
  | jarr (xs : List String)
  | jother
deriving DecidableEq, Repr

structure RawAnalysis where
  lessors : Option JVal
  lessees : Option JVal
  acreage : Option JVal
  depths : Option JVal
  term : Option JVal
  royalty : Option JVal
  insights : Option JVal
deriving DecidableEq, Repr

/-- `Array.isArray(x) && x.length > 0` on a duck-typed field. -/
def isNonEmptyArr : Option JVal → Bool
  | some (.jarr xs) => !xs.isEmpty
  | _ => false

/-- `BedrockAnalyzer.validateAnalysisResult`, returning the thrown message
(`none` when validation passes): required fields in declaration order,
then the three non-empty-array checks. -/
def validateAnalysisResult (a : RawAnalysis) : Option String :=
  if a.lessors.isNone then some "Analysis result missing required field: lessors"
  else if a.lessees.isNone then some "Analysis result missing required field: lessees"
  else if a.acreage.isNone then some "Analysis result missing required field: acreage"
  else if a.depths.isNone then some "Analysis result missing required field: depths"
  else if a.term.isNone then some "Analysis result missing required field: term"
  else if a.royalty.isNone then some "Analysis result missing required field: royalty"
  else if a.insights.isNone then some "Analysis result missing required field: insights"
  else if !isNonEmptyArr a.lessors then some "Analysis result must have at least one lessor"
  else if !isNonEmptyArr a.lessees then some "Analysis result must have at least one lessee"
  else if !isNonEmptyArr a.insights then some "Analysis result must have at least one insight"
  else none

/-- A fully-populated record with identical scalar sentinel and list
sentinel values. -/
def mkSentinelRaw (scalar : String) (listVal : List String) (ins : List String) : RawAnalysis :=
  ⟨some (.jarr listVal), some (.jarr listVal),
   some (.jstr scalar), some (.jstr scalar), some (.jstr scalar), some (.jstr scalar),
   some (.jarr ins)⟩

/-- The outer-catch fallback of `analyzeContractWithBedrock`. -/
def serviceUnavailableAnalysis (errMsg : String) : RawAnalysis :=
  mkSentinelRaw "Service unavailable" ["Service unavailable"]
    ["Contract analysis failed: " ++ errMsg,
     "This may be due to AWS Bedrock model access not being enabled.",
     "Please check AWS Bedrock console for model access permissions."]

/-- The inner parse-error fallback of `analyzeContractWithBedrock`. -/
def parseErrorAnalysis : RawAnalysis :=
  mkSentinelRaw "Could not extract from document" ["Could not extract from document"]
    ["Analysis could not be completed due to parsing error"]

/-- `BedrockAnalyzer.createErrorAnalysis`. -/
def createErrorAnalysis (fileName errMsg : String) : RawAnalysis :=
  mkSentinelRaw "Error in processing" ["Error in processing"]
    ["Failed to process " ++ fileName ++ ". Please try again or contact support.",
     "Error details: " ++ errMsg]

/-- `analyzeContractWithBedrock` (utils/awsServices.ts): never throws —
its own catches turn an invocation failure or a parse failure into the
two sentinel records, and a parsed object is returned untouched. -/
def analyzeContractWithBedrock : Except String (Option RawAnalysis) → RawAnalysis
  | .error e => serviceUnavailableAnalysis e
  | .ok none => parseErrorAnalysis
  | .ok (some raw) => raw

/-- `BedrockAnalyzer.analyzeContract`: run the Bedrock call, validate the
shape; a validation throw is caught and turned into
`createErrorAnalysis`. -/
def bedrockAnalyzeContract (fileName : String)
    (call : Except String (Option RawAnalysis)) : RawAnalysis :=
  let analysis := analyzeContractWithBedrock call
  match validateAnalysisResult analysis with
  | none => analysis
  | some msg => createErrorAnalysis fileName msg

/-- The three sentinel strings an error-shaped result may carry. -/
def scalarSentinels : List String :=
  ["Error in processing", "Service unavailable", "Could not extract from document"]

/-- All four scalar fields equal one common sentinel string. -/
def hasSentinelScalars (a : RawAnalysis) : Bool :=
  scalarSentinels.any (fun s =>
    a.acreage == some (.jstr s) && a.depths == some (.jstr s) &&
    a.term == some (.jstr s) && a.royalty == some (.jstr s))

/-- Number of insights carried (0 when the field is not an array). -/
def insightsCount (a : RawAnalysis) : ℕ :=
  match a.insights with
  | some (.jarr xs) => xs.length
  | _ => 0

/-- The call produced a response of valid shape. -/
def validResponse : Except String (Option RawAnalysis) → Bool
  | .ok (some raw) => (validateAnalysisResult raw).isNone
  | _ => false

end BedrockModel

/-! ## Supporting definitions for the claim theorems -/

namespace ContractAnalysisService

/-- Append one insight, all other fields unchanged. -/
def appendInsight (a : ContractAnalysisResult) (s : String) : ContractAnalysisResult :=
  ⟨a.lessors, a.lessees, a.acreage, a.depths, a.term, a.royalty, a.insights ++ [s]⟩

/-- The risk factors that do not depend on the insights:
low royalty, very high royalty, complexity, non-standard term. -/
def riskPre (a : ContractAnalysisResult) : ℕ :=
  let rp := extractRoyaltyPercentage a.royalty
  (match rp with | some q => if q < 10 then 20 else 0 | none => 0) +
  (match rp with | some q => if 20 < q then 10 else 0 | none => 0) +
  (if isComplexAgreement a.lessors a.lessees then 15 else 0) +
  (if isStandardTerm a.term then 0 else 10)

/-- The acreage risk factor. -/
def acreFactor (a : ContractAnalysisResult) : ℕ :=
  match extractAcreageNumber a.acreage with
  | some q => if 1000 < q then 10 else 0
  | none => 0

theorem calculateRiskScore_eq (a : ContractAnalysisResult) :
    calculateRiskScore a =
      min (riskPre a + min (5 * (getCriticalInsights a.insights).length) 25 + acreFactor a) 100 :=
  rfl

theorem getCriticalInsights_append (l : List String) (s : String)
    (h : isCriticalInsight s = true) :
    getCriticalInsights (l ++ [s]) = getCriticalInsights l ++ [s] := by
  simp [getCriticalInsights, List.filter_append, h]

end ContractAnalysisService

end ContractAnalyzer

namespace ContractAnalyzer

open ContractAnalysisService

/-! ## Helper lemmas about the orchestrator -/

namespace ProcessContractFilesUseCase

open ContractValidationService

theorem length_mapIdxFrom (g : ℕ → α → β) (i : ℕ) (l : List α) :
    (mapIdxFrom g i l).length = l.length := by
  induction l generalizing i with
  | nil => rfl
  | cons x xs ih => simp [mapIdxFrom, ih]

theorem getElem?_mapIdxFrom (g : ℕ → α → β) (i j : ℕ) (l : List α) :
    (mapIdxFrom g i l)[j]? = (l[j]?).map (g (i + j)) := by
  induction l generalizing i j with
  | nil => simp [mapIdxFrom]
  | cons x xs ih =>
    cases j with
    | zero => simp [mapIdxFrom]
    | succ j =>
      simp only [mapIdxFrom, List.getElem?_cons_succ, ih]
      ring_nf

theorem insertByPriority_perm (x : FileModel) (l : List FileModel) :
    (insertByPriority x l).Perm (x :: l) := by
  induction l with
  | nil => exact List.Perm.refl _
  | cons y ys ih =>
    by_cases hc : getProcessingPriority y.name y.size ≤ getProcessingPriority x.name x.size
    · simp [insertByPriority, hc]
    · simp only [insertByPriority, hc, if_false]
      exact (ih.cons y).trans (List.Perm.swap x y ys)

theorem sortFilesByPriority_perm (l : List FileModel) :
    (sortFilesByPriority l).Perm l := by
  induction l with
  | nil => exact List.Perm.refl _
  | cons f fs ih =>
    exact (insertByPriority_perm f (sortFilesByPriority fs)).trans (ih.cons f)

end ProcessContractFilesUseCase

/-! ## Concrete adapters and batches used by the witnesses -/

/-- A populated analysis, as the mock analyzer of the integration tests
returns. -/
def demoAnalysis : ContractAnalysisResult :=
  ⟨["John Doe"], ["Oil Company Inc."], "160 acres", "all formations below 500 feet",
   "5 years", "12.5%", ["Standard lease terms"]⟩

/-- An extractor that throws on `bad.pdf` and succeeds elsewhere. -/
def demoExt (f : FileModel) : Except String String :=
  if f.name == "bad.pdf" then Except.error "Text extraction failed: boom"
  else Except.ok ("sample text of " ++ f.name)

/-- An analyzer that always succeeds. -/
def demoAna (_text _fileName : String) : Except String ContractAnalysisResult :=
  Except.ok demoAnalysis

def demoGenId (i : ℕ) : String := "id" ++ toString i

/-- A three-PDF batch of equal priority, of which `bad.pdf` fails. -/
def demoBatch : List FileModel :=
  [⟨"good1.pdf", 1024, "application/pdf", ""⟩,
   ⟨"bad.pdf", 1024, "application/pdf", ""⟩,
   ⟨"good3.pdf", 1024, "application/pdf", ""⟩]

/-! ## Claim theorems -/

/-- C8: royalty extraction tries, in order, the percentage pattern, the
fraction pattern converted to percent, and the leading-decimal pattern
times 100, first match winning, no match giving null; and on the four
quoted inputs it returns 12.5, 12.5, 18.75 and null respectively. -/
theorem C8_royalty_extraction :
    (∀ s : String, extractRoyaltyPercentage s =
      if errGuard s then none
      else ((percentBranch s).orElse fun _ =>
        (fractionBranch s).orElse fun _ => decimalBranch s)) ∧
    extractRoyaltyPercentage "12.5%" = some (12.5 : ℚ) ∧
    extractRoyaltyPercentage "1/8" = some (12.5 : ℚ) ∧
    extractRoyaltyPercentage "0.1875" = some (18.75 : ℚ) ∧
    extractRoyaltyPercentage "Not found" = none := by
  refine ⟨fun s => ?_, by with_unfolding_all decide, by with_unfolding_all decide,
    by with_unfolding_all decide, by with_unfolding_all decide⟩
  by_cases hg : errGuard s
  · simp [extractRoyaltyPercentage, hg]
  · simp only [extractRoyaltyPercentage, percentBranch, fractionBranch, decimalBranch,
      hg, Bool.false_eq_true, if_false]
    cases hp : findPercentNum s.toList with
    | some q => simp [Option.orElse]
    | none =>
      cases hf : findFraction s.toList with
      | some nd =>
        by_cases hd0 : nd.2 = 0
        · simp [Option.orElse, hd0]
        · simp [Option.orElse, hd0]
      | none => simp [Option.orElse]

/-- C10: `extractRoyaltyPercentage` is total (it is a function into
`Option ℚ`), and when the first fraction match has denominator 0 the
fraction branch performs no division and is skipped: the result is
exactly the leading-decimal branch (so in particular it is `none` when
that pattern is absent, never an infinity or NaN). -/
theorem C10_fraction_denominator_zero_skipped (s : String) (n : ℕ)
    (hg : errGuard s = false)
    (hp : findPercentNum s.toList = none)
    (hf : findFraction s.toList = some (n, 0)) :
    extractRoyaltyPercentage s = decimalBranch s := by
  have hp2 : findPercentNum s.toList = none := hp
  have hf2 : findFraction s.toList = some (n, 0) := hf
  simp only [extractRoyaltyPercentage, decimalBranch, hg, Bool.false_eq_true, if_false]
  rw [hp2, hf2]
  simp

theorem C10_fraction_denominator_zero_skipped_witness :
    errGuard "1/0" = false ∧ findPercentNum "1/0".toList = none ∧
    findFraction "1/0".toList = some (1, 0) ∧
    extractRoyaltyPercentage "1/0" = none :=
  ⟨by decide, by decide, by decide,
    (C10_fraction_denominator_zero_skipped "1/0" 1 (by decide) (by decide) (by decide)).trans
      (by decide)⟩

/-- C9: the risk score lies in [0, 100]; appending an insight containing a
critical keyword (all other fields held constant) never decreases it; and
once five or more critical insights are present, appending another adds
nothing (the critical-insight factor is capped at +25). -/
theorem C9_risk_score_monotone_capped (a : ContractAnalysisResult) (s : String)
    (h : isCriticalInsight s = true) :
    calculateRiskScore a ≤ 100 ∧
    calculateRiskScore a ≤ calculateRiskScore (appendInsight a s) ∧
    (5 ≤ (getCriticalInsights a.insights).length →
      calculateRiskScore (appendInsight a s) = calculateRiskScore a) := by
  have happ : getCriticalInsights (appendInsight a s).insights
      = getCriticalInsights a.insights ++ [s] :=
    getCriticalInsights_append a.insights s h
  have hpre : riskPre (appendInsight a s) = riskPre a := rfl
  have hacre : acreFactor (appendInsight a s) = acreFactor a := rfl
  refine ⟨calculateRiskScore_eq a ▸ Nat.min_le_right _ _, ?_, fun h5 => ?_⟩
  · rw [calculateRiskScore_eq, calculateRiskScore_eq, happ, hpre, hacre]
    simp only [List.length_append, List.length_singleton]
    exact min_le_min (Nat.add_le_add (Nat.add_le_add le_rfl
      (min_le_min (by omega) le_rfl)) le_rfl) le_rfl
  · rw [calculateRiskScore_eq, calculateRiskScore_eq, happ, hpre, hacre]
    simp only [List.length_append, List.length_singleton]
    have h1 : min (5 * (getCriticalInsights a.insights).length) 25 = 25 :=
      min_eq_right (by omega)
    have h2 : min (5 * ((getCriticalInsights a.insights).length + 1)) 25 = 25 :=
      min_eq_right (by omega)
    rw [h1, h2]

/-- A concrete analysis with exactly five critical insights, for the C9
witness. -/
def fiveCriticalAnalysis : ContractAnalysisResult :=
  ⟨["Alice"], ["Acme"], "160 acres", "all depths", "5 years", "12.5%",
   ["unusual clause", "risk of forfeiture", "ambiguous term", "warning: deductions",
    "conflict with pooling"]⟩

theorem C9_risk_score_monotone_capped_witness :
    isCriticalInsight "non-standard royalty" = true ∧
    (getCriticalInsights fiveCriticalAnalysis.insights).length = 5 ∧
    (calculateRiskScore fiveCriticalAnalysis ≤ 100 ∧
     calculateRiskScore fiveCriticalAnalysis ≤
       calculateRiskScore (appendInsight fiveCriticalAnalysis "non-standard royalty") ∧
     (5 ≤ (getCriticalInsights fiveCriticalAnalysis.insights).length →
       calculateRiskScore (appendInsight fiveCriticalAnalysis "non-standard royalty") =
         calculateRiskScore fiveCriticalAnalysis)) :=
  ⟨by decide, by decide,
    C9_risk_score_monotone_capped fiveCriticalAnalysis "non-standard royalty" (by decide)⟩


/-- The error-sentinel shape of a per-file failure contract: human-readable
error text, every scalar field equal to the sentinel, and at least one
insight. -/
def errorShaped (c : ContractData) (fname msg : String) : Prop :=
  c.fileName = fname ∧
  c.extractedText = "Error processing file: " ++ msg ∧
  c.analysis.lessors = ["Error in processing"] ∧
  c.analysis.lessees = ["Error in processing"] ∧
  c.analysis.acreage = "Error in processing" ∧
  c.analysis.depths = "Error in processing" ∧
  c.analysis.term = "Error in processing" ∧
  c.analysis.royalty = "Error in processing" ∧
  1 ≤ c.analysis.insights.length

/-- C1: for a batch that passes validation, `execute` resolves (never
rejects) with exactly one contract per input file — position `i` of the
result pairs with position `i` of the priority-sorted batch, which is a
permutation of the input — and each contract depends only on the outcome
of its own file's adapter calls: a file whose extraction or analysis
throws yields the error-sentinel contract, while every other file's
contract carries its own extracted text and analysis untouched. -/
theorem C1_per_file_failures_isolated
    (ext : FileModel → Except String String)
    (ana : String → String → Except String ContractAnalysisResult)
    (now : ℕ) (genId : ℕ → String) (files : List FileModel)
    (hv : ProcessContractFilesUseCase.validateFiles files = []) :
    ∃ cs : List ContractData,
      (ProcessContractFilesUseCase.executeT ext ana now genId files).1 = Except.ok cs ∧
      cs.length = files.length ∧
      (ProcessContractFilesUseCase.sortFilesByPriority files).Perm files ∧
      ∀ (i : ℕ) (f : FileModel),
        (ProcessContractFilesUseCase.sortFilesByPriority files)[i]? = some f →
        (∀ e, ext f = Except.error e →
          ∃ c, cs[i]? = some c ∧ errorShaped c f.name e) ∧
        (∀ t e, ext f = Except.ok t → ana t f.name = Except.error e →
          ∃ c, cs[i]? = some c ∧ errorShaped c f.name e) ∧
        (∀ t a, ext f = Except.ok t → ana t f.name = Except.ok a →
          ∃ c : ContractData, cs[i]? = some c ∧ c.fileName = f.name ∧ c.extractedText = t ∧
            c.analysis = a) := by
  refine ⟨(ProcessContractFilesUseCase.mapIdxFrom
      (fun i f => ProcessContractFilesUseCase.processIndividualFileT ext ana now (genId i) f) 0
      (ProcessContractFilesUseCase.sortFilesByPriority files)).map Prod.fst, ?_, ?_,
      ProcessContractFilesUseCase.sortFilesByPriority_perm files, ?_⟩
  · simp [ProcessContractFilesUseCase.executeT, hv]
  · rw [List.length_map, ProcessContractFilesUseCase.length_mapIdxFrom,
      (ProcessContractFilesUseCase.sortFilesByPriority_perm files).length_eq]
  · intro i f hif
    have hci : ((ProcessContractFilesUseCase.mapIdxFrom
        (fun i f => ProcessContractFilesUseCase.processIndividualFileT ext ana now (genId i) f) 0
        (ProcessContractFilesUseCase.sortFilesByPriority files)).map Prod.fst)[i]?
        = some ((ProcessContractFilesUseCase.processIndividualFileT ext ana now (genId i) f).1) := by
      rw [List.getElem?_map, ProcessContractFilesUseCase.getElem?_mapIdxFrom, hif]
      simp
    refine ⟨fun e he => ⟨_, hci, ?_⟩, fun t e ht he => ⟨_, hci, ?_⟩,
      fun t a ht ha => ⟨_, hci, ?_, ?_, ?_⟩⟩
    · simp [ProcessContractFilesUseCase.processIndividualFileT, he,
        ProcessContractFilesUseCase.createErrorContract,
        ProcessContractFilesUseCase.errorAnalysis, errorShaped]
    · simp [ProcessContractFilesUseCase.processIndividualFileT, ht, he,
        ProcessContractFilesUseCase.createErrorContract,
        ProcessContractFilesUseCase.errorAnalysis, errorShaped]
    · simp [ProcessContractFilesUseCase.processIndividualFileT, ht, ha,
        ProcessContractFilesUseCase.createContractData]
    · simp [ProcessContractFilesUseCase.processIndividualFileT, ht, ha,
        ProcessContractFilesUseCase.createContractData]
    · simp [ProcessContractFilesUseCase.processIndividualFileT, ht, ha,
        ProcessContractFilesUseCase.createContractData]

theorem C1_per_file_failures_isolated_witness :
    ProcessContractFilesUseCase.validateFiles demoBatch = [] ∧
    (∃ cs : List ContractData,
      (ProcessContractFilesUseCase.executeT demoExt demoAna 7 demoGenId demoBatch).1
        = Except.ok cs ∧
      cs.length = demoBatch.length ∧
      (ProcessContractFilesUseCase.sortFilesByPriority demoBatch).Perm demoBatch ∧
      ∀ (i : ℕ) (f : FileModel),
        (ProcessContractFilesUseCase.sortFilesByPriority demoBatch)[i]? = some f →
        (∀ e, demoExt f = Except.error e →
          ∃ c, cs[i]? = some c ∧ errorShaped c f.name e) ∧
        (∀ t e, demoExt f = Except.ok t → demoAna t f.name = Except.error e →
          ∃ c, cs[i]? = some c ∧ errorShaped c f.name e) ∧
        (∀ t a, demoExt f = Except.ok t → demoAna t f.name = Except.ok a →
          ∃ c : ContractData, cs[i]? = some c ∧ c.fileName = f.name ∧ c.extractedText = t ∧
            c.analysis = a)) :=
  ⟨by decide, C1_per_file_failures_isolated demoExt demoAna 7 demoGenId demoBatch (by decide)⟩

/-- C2: a batch containing any file that fails validation is rejected with
the aggregated validation error, and no extraction or analysis call is
made for any file of the batch — the adapter-call trace is empty and the
outcome does not depend on the adapters at all. -/
theorem C2_invalid_batch_rejected_before_any_call
    (ext : FileModel → Except String String)
    (ana : String → String → Except String ContractAnalysisResult)
    (now : ℕ) (genId : ℕ → String) (files : List FileModel)
    (h : ProcessContractFilesUseCase.validateFiles files ≠ []) :
    ProcessContractFilesUseCase.executeT ext ana now genId files =
      (Except.error ("File validation failed: " ++
        String.intercalate ", " (ProcessContractFilesUseCase.validateFiles files)),
       ([] : List AdapterCall)) := by
  have hne : (ProcessContractFilesUseCase.validateFiles files).isEmpty = false := by
    cases hval : ProcessContractFilesUseCase.validateFiles files with
    | nil => exact absurd hval h
    | cons a l => rfl
  simp [ProcessContractFilesUseCase.executeT, hne]

/-- A batch whose first file has an empty name (and would otherwise be
valid), plus a fully valid file. -/
def demoInvalidBatch : List FileModel :=
  [⟨"", 1024, "application/pdf", ""⟩,
   ⟨"good.txt", 10, "text/plain", "hello"⟩]

theorem C2_invalid_batch_rejected_before_any_call_witness :
    ProcessContractFilesUseCase.validateFiles demoInvalidBatch ≠ [] ∧
    ProcessContractFilesUseCase.executeT demoExt demoAna 7 demoGenId demoInvalidBatch =
      (Except.error ("File validation failed: " ++
        String.intercalate ", " (ProcessContractFilesUseCase.validateFiles demoInvalidBatch)),
       ([] : List AdapterCall)) :=
  ⟨by decide,
    C2_invalid_batch_rejected_before_any_call demoExt demoAna 7 demoGenId demoInvalidBatch
      (by decide)⟩

/-- C3: the analysis adapter never throws (it is a total function into
analysis records); whenever the Bedrock call fails or its response shape
is invalid — missing required fields, or `lessors`/`lessees`/`insights`
not non-empty arrays — the result carries one common error-sentinel value
in every scalar field and at least one explanatory insight; and a
response of valid shape is returned exactly as-is, never partially. -/
theorem C3_analyzer_total_sentinel_on_failure (fileName : String)
    (call : Except String (Option BedrockModel.RawAnalysis)) :
    (BedrockModel.validResponse call = false →
      BedrockModel.hasSentinelScalars (BedrockModel.bedrockAnalyzeContract fileName call) = true ∧
      1 ≤ BedrockModel.insightsCount (BedrockModel.bedrockAnalyzeContract fileName call)) ∧
    (∀ raw, call = Except.ok (some raw) →
      BedrockModel.validateAnalysisResult raw = none →
      BedrockModel.bedrockAnalyzeContract fileName call = raw) := by
  constructor
  · intro hinvalid
    match call with
    | .error e =>
      constructor <;>
        simp [BedrockModel.bedrockAnalyzeContract, BedrockModel.analyzeContractWithBedrock,
          BedrockModel.serviceUnavailableAnalysis, BedrockModel.mkSentinelRaw,
          BedrockModel.validateAnalysisResult, BedrockModel.isNonEmptyArr,
          BedrockModel.hasSentinelScalars, BedrockModel.scalarSentinels,
          BedrockModel.insightsCount]
    | .ok none =>
      constructor <;>
        simp [BedrockModel.bedrockAnalyzeContract, BedrockModel.analyzeContractWithBedrock,
          BedrockModel.parseErrorAnalysis, BedrockModel.mkSentinelRaw,
          BedrockModel.validateAnalysisResult, BedrockModel.isNonEmptyArr,
          BedrockModel.hasSentinelScalars, BedrockModel.scalarSentinels,
          BedrockModel.insightsCount]
    | .ok (some raw) =>
      cases hval : BedrockModel.validateAnalysisResult raw with
      | none => simp [BedrockModel.validResponse, hval] at hinvalid
      | some msg =>
        constructor <;>
          simp [BedrockModel.bedrockAnalyzeContract, BedrockModel.analyzeContractWithBedrock,
            hval, BedrockModel.createErrorAnalysis, BedrockModel.mkSentinelRaw,
            BedrockModel.hasSentinelScalars, BedrockModel.scalarSentinels,
            BedrockModel.insightsCount]
  · intro raw hcall hval
    subst hcall
    simp [BedrockModel.bedrockAnalyzeContract, BedrockModel.analyzeContractWithBedrock, hval]

/-- A parsed model response whose `lessors` is an empty array (invalid
shape, all fields present). -/
def demoBadRaw : BedrockModel.RawAnalysis :=
  ⟨some (BedrockModel.JVal.jarr []), some (BedrockModel.JVal.jarr ["Acme Energy"]),
   some (BedrockModel.JVal.jstr "160 acres"), some (BedrockModel.JVal.jstr "all depths"),
   some (BedrockModel.JVal.jstr "5 years"), some (BedrockModel.JVal.jstr "1/8"),
   some (BedrockModel.JVal.jarr ["looks fine"])⟩

theorem C3_analyzer_total_sentinel_on_failure_witness :
    BedrockModel.validResponse (Except.ok (some demoBadRaw)) = false ∧
    BedrockModel.hasSentinelScalars
      (BedrockModel.bedrockAnalyzeContract "contract.pdf" (Except.ok (some demoBadRaw))) = true ∧
    1 ≤ BedrockModel.insightsCount
      (BedrockModel.bedrockAnalyzeContract "contract.pdf" (Except.ok (some demoBadRaw))) :=
  ⟨by decide,
    (C3_analyzer_total_sentinel_on_failure "contract.pdf" (Except.ok (some demoBadRaw))).1
      (by decide)⟩

/-- C4 (divergence demonstrated at a concrete input): for a PDF named
`a b.pdf`, even under one shared clock reading, the upload stores the
object under `contracts/<t>-a b.pdf` (raw name) while the orchestrator
attaches `contracts/<t>-a_b.pdf` (fresh key, sanitized name) to the
contract — the attached key is not the key of the uploaded object (and a
fortiori differs when the clock readings differ); for a non-PDF file no
key is attached. -/
theorem C4_attached_key_differs_from_upload_key :
    AwsServices.uploadFileToS3Key 1700000000000 ⟨"a b.pdf", 2048, "application/pdf", ""⟩
      = "contracts/1700000000000-a b.pdf" ∧
    ProcessContractFilesUseCase.generateS3Key 1700000000000 ⟨"a b.pdf", 2048, "application/pdf", ""⟩
      = some "contracts/1700000000000-a_b.pdf" ∧
    some (AwsServices.uploadFileToS3Key 1700000000000 ⟨"a b.pdf", 2048, "application/pdf", ""⟩)
      ≠ ProcessContractFilesUseCase.generateS3Key 1700000000000
          ⟨"a b.pdf", 2048, "application/pdf", ""⟩ ∧
    (ProcessContractFilesUseCase.processIndividualFileT demoExt demoAna 1700000000000 "id0"
        ⟨"a b.pdf", 2048, "application/pdf", ""⟩).1.s3Key
      = some "contracts/1700000000000-a_b.pdf" ∧
    ProcessContractFilesUseCase.generateS3Key 1700000000000 ⟨"notes.txt", 64, "text/plain", "x"⟩
      = none := by
  decide

/-- Oracle paths for the non-plain-text branches, unused by `text/plain`
files. -/
def demoNoPath (_f : FileModel) : Except String String × List AwsServices.NetCall :=
  (Except.error "unreachable", [AwsServices.NetCall.detectText])

/-- C5 (counterexample to the claim as stated): for a `text/plain` file
whose content needs normalizing, extraction returns the raw decoded
content, which differs from its `normalizeContractText` image — the
claimed normalization is not applied on this path. -/
theorem C5_plain_text_returned_unnormalized :
    AwsServices.extractTextWithTextract demoNoPath demoNoPath
        ⟨"notes.txt", 11, "text/plain", "  hi\r\nthere"⟩
      = (Except.ok "  hi\r\nthere", []) ∧
    BusinessLogic.normalizeContractText "  hi\r\nthere" = "hi\nthere" ∧
    ("  hi\r\nthere" : String) ≠ "hi\nthere" := by
  decide

/-- C5 (amended): for every file of declared type `text/plain`, extraction
makes no network call and returns the byte content decoded as text
unchanged — `normalizeContractText` is not invoked on this path. -/
theorem C5_plain_text_direct_no_network
    (pdfPath imgPath : FileModel → Except String String × List AwsServices.NetCall)
    (f : FileModel) (h : f.type = "text/plain") :
    AwsServices.extractTextWithTextract pdfPath imgPath f = (Except.ok f.content, []) := by
  simp [AwsServices.extractTextWithTextract, h]

theorem C5_plain_text_direct_no_network_witness :
    (FileModel.mk "plain.txt" 5 "text/plain" "hello").type = "text/plain" ∧
    AwsServices.extractTextWithTextract demoNoPath demoNoPath
        ⟨"plain.txt", 5, "text/plain", "hello"⟩
      = (Except.ok "hello", []) :=
  ⟨rfl, C5_plain_text_direct_no_network demoNoPath demoNoPath
    ⟨"plain.txt", 5, "text/plain", "hello"⟩ rfl⟩

def demoSucceededResponse : AwsServices.GetDetectionResponse :=
  ⟨some "SUCCEEDED", none, some [⟨"LINE", some "hello"⟩], false⟩

/-- A service whose first status poll throws a transient (non-job-id)
error and which reports `SUCCEEDED` from the second poll on. -/
def demoPollsTransientFirst (n : ℕ) : AwsServices.PollOutcome :=
  if n = 0 then AwsServices.PollOutcome.threw false
  else AwsServices.PollOutcome.ok demoSucceededResponse

/-- The same service without the transient error. -/
def demoPollsClean (_n : ℕ) : AwsServices.PollOutcome :=
  AwsServices.PollOutcome.ok demoSucceededResponse

/-- C6 (divergence demonstrated at a concrete input): one transient error
on the first status poll makes the loop raise the timeout error
immediately — with 99 attempts left and a job that would report
`SUCCEEDED` on the very next poll — because `jobStatus = 'POLLING_ERROR'`
falsifies the `while` condition; the same service without the transient
error extracts the text.  Only the invalid-job-id error fails the loop by
design. -/
theorem C6_transient_poll_error_aborts_loop :
    AwsServices.pdfPollLoop "job-1" demoPollsTransientFirst []
      = Except.error AwsServices.timedOutMessage ∧
    AwsServices.pdfPollLoop "job-1" demoPollsClean [] = Except.ok "hello" ∧
    AwsServices.pdfPollLoop "job-1" (fun _ => AwsServices.PollOutcome.threw true) []
      = Except.error "Textract job job-1 is invalid or expired" := by
  refine ⟨by decide, by decide, by decide⟩

/-- A two-file batch whose priority order reverses its input order: a
25 MB PDF (priority 3) before a 1 KB text file (priority 15). -/
def demoOrderBatch : List FileModel :=
  [⟨"large.pdf", 25 * 1024 * 1024, "application/pdf", ""⟩,
   ⟨"small.txt", 1024, "text/plain", ""⟩]

/-- C7 (divergence demonstrated at a concrete input): for the valid batch
`[large.pdf, small.txt]` the returned contract list is in descending
priority order `[small.txt, large.pdf]`, not input order — `Promise.all`
is mapped over the sorted array, so the sort does change the
correspondence between result position and input position. -/
theorem C7_results_returned_in_priority_order :
    demoOrderBatch.map FileModel.name = ["large.pdf", "small.txt"] ∧
    ((ProcessContractFilesUseCase.executeT demoExt demoAna 7 demoGenId demoOrderBatch).1).map
        (List.map ContractData.fileName)
      = Except.ok ["small.txt", "large.pdf"] := by
  refine ⟨by decide, by with_unfolding_all decide⟩

end ContractAnalyzer
